import Mathlib

/-!
Verification of the resume-generator content-selection and page-fitting
convergence engine of this repository, against its natural-language
specification. Python strings are embedded as `List Char`, floating-point
page lengths as `ℚ`, fallible code as `Option`/`Except`, and the
orchestration loop of `src/agents/resume_generator/graph.py` as an explicit
fuel-indexed recursion whose branch decisions are taken verbatim from the
source edge function.
-/

/-- Python strings are modelled as lists of characters. -/
abbrev Str := List Char

/-- Modelled from the spec: `compute_resume_page_length` is imported by
`test/test_pdf_metrics.py` from `src.features.resume.utils`, but the function
itself is absent from the provided sources. Spec §4.5: `aggregate_length` is
`(total_pages − 1) + fill[last page]`; zero pages yields `0.0`. -/
def compute_resume_page_length (page_fill : List ℚ) : ℚ :=
  match page_fill.getLast? with
  | none => 0
  | some lastFill => ((page_fill.length : ℚ) - 1) + lastFill

/-- Targets of the conditional edge after `generate_resume_pdf` in
`src/agents/resume_generator/graph.py`: loop to `provide_resume_feedback`
or terminate at `END`. -/
inductive RouteTarget where
  | provideFeedback
  | endNode
deriving DecidableEq, Repr

/-- The slice of the resume-generator internal state read by
`route_feedback_edge`. The state class carrying these fields is not in the
provided sources; field names and types follow their uses in
`graph.py`, `provide_resume_feedback.py` and `generate_resume_pdf.py`
(page lengths are floats, the iteration counter an int). -/
structure FeedbackState where
  feedback_loop_iterations : Nat
  feedback_loop_max_iterations : Nat
  resume_page_length : Option ℚ
  resume_page_target : Option ℚ

/-- `route_feedback_edge` from `src/agents/resume_generator/graph.py`
lines 79-106: end the loop when iterations exceed the maximum; otherwise
continue when either metric is missing; otherwise end exactly when
`target - 0.07 ≤ page_length ≤ target`. -/
def route_feedback_edge (s : FeedbackState) : RouteTarget :=
  if s.feedback_loop_iterations > s.feedback_loop_max_iterations then
    RouteTarget.endNode
  else
    match s.resume_page_length, s.resume_page_target with
    | some page_length, some target =>
        if target - 7/100 ≤ page_length ∧ page_length ≤ target then
          RouteTarget.endNode
        else RouteTarget.provideFeedback
    | _, _ => RouteTarget.provideFeedback

/-- Outcome of one call of the external feedback LLM chain inside
`provide_resume_feedback`: the call raises, returns empty text, or returns
feedback text. -/
inductive FeedbackOutcome where
  | failure
  | emptyText
  | success (text : Str)

/-- `provide_resume_feedback` from
`src/agents/resume_generator/nodes/provide_resume_feedback.py` lines 47-61,
reduced to the state update it returns: the iteration increment (applied via
the reducer-add semantics its docstring names) and the feedback text. All
three exits increment the counter by one; only a successful non-empty
generation also sets `resume_feedback`. -/
def provide_resume_feedback : FeedbackOutcome → Nat × Option Str
  | FeedbackOutcome.failure => (1, none)
  | FeedbackOutcome.emptyText => (1, none)
  | FeedbackOutcome.success t => (1, some t)

/-- Outcome of one `generate_resume_pdf` call, abstracting the external
template resolution, rendering and page-count reading of
`src/agents/resume_generator/nodes/generate_resume_pdf.py`. -/
inductive RenderOutcome where
  | noResume
  | templateFail
  | renderFail
  | pageCountFail (path : Str)
  | rendered (path : Str) (pageCount : Nat)

/-- `generate_resume_pdf` from
`src/agents/resume_generator/nodes/generate_resume_pdf.py` lines 37-92,
reduced to the `(resume_path, resume_page_length)` updates it returns:
missing resume, template failure and render failure update nothing; a
page-count read failure records only the path; success records the path and
`float(page_count)` as the page length. -/
def generate_resume_pdf : RenderOutcome → Option Str × Option ℚ
  | RenderOutcome.noResume => (none, none)
  | RenderOutcome.templateFail => (none, none)
  | RenderOutcome.renderFail => (none, none)
  | RenderOutcome.pageCountFail p => (some p, none)
  | RenderOutcome.rendered p pageCount => (some p, some (pageCount : ℚ))

/-- The convergence loop of `graph.py`:
`select_resume_content → generate_resume_pdf → route_feedback_edge`, looping
through `provide_resume_feedback`. `meas c` is the page length measured at
cycle `c` (`none` when rendering or page counting fails, in which case the
recorded length is left unchanged), `fb c` the outcome of the feedback call
after cycle `c`. Arguments: fuel, cycles completed, iteration counter,
recorded page length. Returns `(measured cycles, final iteration counter)`
when the fuel suffices. Initial counter `0` and the loop wiring follow the
spec (the state class with its defaults is absent from the sources). -/
def feedback_loop_run (meas : Nat → Option ℚ) (fb : Nat → FeedbackOutcome)
    (target : ℚ) (maxIter : Nat) :
    Nat → Nat → Nat → Option ℚ → Option (Nat × Nat)
  | 0, _, _, _ => none
  | fuel + 1, cycles, iters, recorded =>
    let recorded' :=
      match meas cycles with
      | some len => some len
      | none => recorded
    match route_feedback_edge ⟨iters, maxIter, recorded', some target⟩ with
    | RouteTarget.endNode => some (cycles + 1, iters)
    | RouteTarget.provideFeedback =>
        feedback_loop_run meas fb target maxIter fuel (cycles + 1)
          (iters + (provide_resume_feedback (fb cycles)).1) recorded'

/-- One measured cycle of the older `generate_pdf` node
(`src/agents/resume_generator/nodes/generate_pdf.py`): the produced document
(identified by an id), its measured page count, and the `is_optimizing` /
`optimization_attempts` flags read from the state. -/
structure GenCycle where
  doc : Nat
  pages : Nat
  is_optimizing : Bool
  attempts : Nat
deriving DecidableEq, Repr

/-- Best-candidate decision of `generate_pdf` lines 83-91: update when no
best exists, when the new measurement is strictly smaller, or when it ties
the best while not in optimization mode. -/
def should_update_best (best_page_length : Option Nat) (estimated_pages : Nat)
    (is_optimizing : Bool) : Bool :=
  match best_page_length with
  | none => true
  | some b => estimated_pages < b || (estimated_pages == b && !is_optimizing)

/-- Best-candidate snapshot tracked across `generate_pdf` cycles
(`best_resume_data` identified by doc id, and `best_page_length`). -/
structure BestTrack where
  best_doc : Option Nat
  best_len : Option Nat
deriving DecidableEq, Repr

/-- One `generate_pdf` call (`generate_pdf.py` lines 77-140), reduced to the
best-tracking state update and the outward `(resume_data, page_length)`
selection: the outward page length is the best length once one exists; the
outward document is replaced by the tracked best only on the exhausted
branch (`is_optimizing` and `optimization_attempts >= 4` and
`estimated_pages > 1`), otherwise it stays the last-produced document. -/
def generate_pdf_step (s : BestTrack) (c : GenCycle) :
    BestTrack × Nat × Nat :=
  let s' :=
    if should_update_best s.best_len c.pages c.is_optimizing then
      { best_doc := some c.doc, best_len := some c.pages }
    else s
  let selected_len :=
    match s'.best_len with
    | some l => l
    | none => c.pages
  let selected_doc :=
    if c.is_optimizing = true ∧ 4 ≤ c.attempts ∧ 1 < c.pages then
      match s'.best_doc with
      | some d => d
      | none => c.doc
    else c.doc
  (s', selected_doc, selected_len)

/-- Best-candidate state after a sequence of `generate_pdf` cycles. -/
def fold_best (s : BestTrack) (cs : List GenCycle) : BestTrack :=
  cs.foldl (fun s c => (generate_pdf_step s c).1) s

/-- Smallest measured page count across a run of cycles (`0` for the empty
run, which never occurs). -/
def minPages : List GenCycle → Nat
  | [] => 0
  | c :: rest => rest.foldl (fun a x => min a x.pages) c.pages

/-- Seen-set loop of the skills deduplication in
`_assemble_resume_from_selection`
(`src/agents/resume_generator/nodes/select_resume_content.py` lines
319-325): keep a skill iff it was not seen before, comparing by exact
string equality. -/
def dedup_skills_go (seen : List Str) : List Str → List Str
  | [] => []
  | sk :: rest =>
      if sk ∈ seen then dedup_skills_go seen rest
      else sk :: dedup_skills_go (sk :: seen) rest

/-- Skills deduplication of `_assemble_resume_from_selection`, starting from
an empty seen set. -/
def dedup_skills (skills : List Str) : List Str :=
  dedup_skills_go [] skills

/-- `User` persisted record (`src/storage/models.py`): `first_name` and
`last_name` are required strings, `email`, `phone` and `linkedin_url` are
nullable. -/
structure User where
  first_name : Str
  last_name : Str
  email : Option Str
  phone : Option Str
  linkedin_url : Option Str
deriving DecidableEq

/-- Year and month of a Python `date` (the only components the resume code
reads). -/
structure DateRec where
  year : Nat
  month : Nat
deriving DecidableEq

/-- `Experience` persisted record fields used by the resume code:
`end_date` is nullable (absent means current). -/
structure Experience where
  title : Str
  company : Str
  location : Str
  start_date : DateRec
  end_date : Option DateRec
deriving DecidableEq

/-- `Education` persisted record fields used by the resume code. -/
structure Education where
  degree : Str
  major : Str
  institution : Str
  grad_date : DateRec
deriving DecidableEq

/-- `Certification` persisted record fields used by the resume code. -/
structure Certification where
  title : Str
  date : DateRec
deriving DecidableEq

/-- `ResumeExperience` from `src/features/resume/types.py`. -/
structure ResumeExperience where
  title : Str
  company : Str
  location : Str
  start_date : Str
  end_date : Str
  points : List Str
deriving DecidableEq

/-- `ResumeEducation` from `src/features/resume/types.py`. -/
structure ResumeEducation where
  degree : Str
  major : Str
  institution : Str
  grad_date : Str
deriving DecidableEq

/-- `ResumeCertification` from `src/features/resume/types.py`. -/
structure ResumeCertification where
  title : Str
  date : Str
deriving DecidableEq

/-- `ResumeData` from `src/features/resume/types.py`. -/
structure ResumeData where
  name : Str
  title : Str
  email : Str
  phone : Str
  linkedin_url : Str
  professional_summary : Str
  experience : List ResumeExperience
  education : List ResumeEducation
  skills : List Str
  certifications : List ResumeCertification
deriving DecidableEq

/-- Month abbreviations used by both `_format_date` implementations. -/
def month_names : List Str :=
  [("Jan".toList), ("Feb".toList), ("Mar".toList), ("Apr".toList),
   ("May".toList), ("Jun".toList), ("Jul".toList), ("Aug".toList),
   ("Sep".toList), ("Oct".toList), ("Nov".toList), ("Dec".toList)]

/-- `_format_date` from `select_resume_content.py` lines 214-232 and
`data_adapter.py` lines 104-130: `None` renders as `Present`, otherwise
`Mon YYYY`. -/
def format_date : Option DateRec → Str
  | none => ("Present".toList)
  | some d => (month_names.getD (d.month - 1) []) ++ [' '] ++ (Nat.repr d.year).toList

/-- `_format_phone` from `src/features/resume/data_adapter.py` lines
133-154: strip non-digits, then format 10-digit and US 11-digit numbers as
`(###)-###-####`, returning the original otherwise; empty or missing phone
renders as the empty string. -/
def format_phone : Option Str → Str
  | none => []
  | some p =>
      if p = [] then []
      else
        let cleaned := p.filter Char.isDigit
        if cleaned.length = 10 then
          ['('] ++ cleaned.take 3 ++ [')', '-'] ++ (cleaned.drop 3).take 3
            ++ ['-'] ++ cleaned.drop 6
        else if cleaned.length = 11 ∧ cleaned.headD '0' = '1' then
          ['('] ++ (cleaned.drop 1).take 3 ++ [')', '-'] ++ (cleaned.drop 4).take 3
            ++ ['-'] ++ cleaned.drop 7
        else p

/-- `transform_user_to_resume_data` from
`src/features/resume/data_adapter.py` lines 157-239: raises `ValueError`
when first or last name is missing; substitutes a placeholder when only the
email is missing; maps education, certifications and experiences (with empty
bullet points and skills, to be filled by later generation steps). -/
def transform_user_to_resume_data (user : User)
    (education_list : List Education) (certification_list : List Certification)
    (experience_data : List Experience) (job_title : Str) :
    Except Str ResumeData :=
  if user.first_name = [] ∨ user.last_name = [] then
    Except.error ("User must have first and last name".toList)
  else
    let email :=
      match user.email with
      | none => ("email@example.com".toList)
      | some e => if e = [] then ("email@example.com".toList) else e
    Except.ok
      { name := user.first_name ++ [' '] ++ user.last_name
        title := job_title
        email := email
        phone := format_phone user.phone
        linkedin_url :=
          match user.linkedin_url with
          | none => []
          | some l => l
        professional_summary := []
        experience := experience_data.map (fun exp =>
          { title := exp.title
            company := exp.company
            location := exp.location
            start_date := format_date (some exp.start_date)
            end_date :=
              match exp.end_date with
              | some e => format_date (some e)
              | none => ("Present".toList)
            points := [] })
        education := education_list.map (fun edu =>
          { degree := edu.degree
            major := edu.major
            institution := edu.institution
            grad_date := format_date (some edu.grad_date) })
        skills := []
        certifications := certification_list.map (fun cert =>
          { title := cert.title
            date := format_date (some cert.date) }) }

/-- One selected experience of the structured LLM output `_NodeOutput` in
`select_resume_content.py`. -/
structure SelectedExperience where
  experience_id : Nat
  points : List Str

/-- Structured LLM output `_NodeOutput` of `select_resume_content.py`. -/
structure NodeOutput where
  professional_summary : Str
  experiences : List SelectedExperience
  selected_skills : List Str

/-- Leading and trailing whitespace strip (`str.strip`). -/
def stripStr (s : Str) : Str :=
  ((s.dropWhile Char.isWhitespace).reverse.dropWhile Char.isWhitespace).reverse

/-- `_assemble_resume_from_selection` from `select_resume_content.py` lines
282-343: map the selected experience ids back onto the state's experiences
(silently skipping unknown ids), format dates, deduplicate the selected
skills, and fill identity fields from the user record, defaulting missing
email/phone/linkedin to the empty string. The name comes from the user's
`full_name` property (`src/storage/models.py`), which is firstplus space
plus last. -/
def assemble_resume_from_selection (user : User)
    (experience : List (Nat × Experience)) (education : List Education)
    (credentials : List Certification) (job_title : Str)
    (sel : NodeOutput) : ResumeData :=
  { name := user.first_name ++ [' '] ++ user.last_name
    title := job_title
    email :=
      match user.email with
      | none => []
      | some e => e
    phone :=
      match user.phone with
      | none => []
      | some p => p
    linkedin_url :=
      match user.linkedin_url with
      | none => []
      | some l => l
    professional_summary := stripStr sel.professional_summary
    experience := sel.experiences.filterMap (fun chosen =>
      match (experience.lookup chosen.experience_id) with
      | none => none
      | some exp => some
          { title := exp.title
            company := exp.company
            location := exp.location
            start_date := format_date (some exp.start_date)
            end_date := format_date exp.end_date
            points := chosen.points })
    education := education.map (fun edu =>
      { degree := edu.degree
        major := edu.major
        institution := edu.institution
        grad_date := format_date (some edu.grad_date) })
    skills := dedup_skills sel.selected_skills
    certifications := credentials.map (fun cert =>
      { title := cert.title
        date := format_date (some cert.date) }) }

/-- `select_resume_content` from `select_resume_content.py` lines 52-106,
reduced to its document-producing behavior: when no user record is loaded
the node logs and returns an empty update (no resume at all); otherwise it
assembles a resume from the (given) structured selection. -/
def select_resume_content (user : Option User)
    (experience : List (Nat × Experience)) (education : List Education)
    (credentials : List Certification) (job_title : Str)
    (sel : NodeOutput) : Option ResumeData :=
  match user with
  | none => none
  | some u =>
      some (assemble_resume_from_selection u experience education credentials
        job_title sel)

/-- Maximal runs of characters satisfying `p`, accumulator-style; `cur`
holds the current run reversed. -/
def splitRuns (p : Char → Bool) : List Char → List Char → List (List Char)
  | [], cur => if cur = [] then [] else [cur.reverse]
  | c :: rest, cur =>
      if p c then splitRuns p rest (c :: cur)
      else if cur = [] then splitRuns p rest []
      else cur.reverse :: splitRuns p rest []

/-- Modelled from the spec: `tokenize` (§4.1) has no implementation in the
provided sources. Lower-case the text, split on non-alphanumeric
boundaries, discard tokens of length ≤ 2, return the set of tokens. -/
def tokenize (text : Str) : Finset Str :=
  ((splitRuns (fun c => c.isAlphanum) (text.map Char.toLower) []).filter
    (fun t => 2 < t.length)).toFinset

/-- Modelled from the spec: word count of a bullet point, counting maximal
whitespace-separated words. -/
def wordCount (text : Str) : Nat :=
  (splitRuns (fun c => !c.isWhitespace) text []).length

/-- Modelled from the spec: `scorePoint` (§4.1) has no implementation in
the provided sources. Twice the job-token overlap plus a length bonus when
the word count is between 8 and 24 inclusive. -/
def scorePoint (point : Str) (jobTokens : Finset Str) : Nat :=
  2 * ((tokenize point) ∩ jobTokens).card +
    (if 8 ≤ wordCount point ∧ wordCount point ≤ 24 then 1 else 0)

/-- One conditional rewrite of `_apply_optimizations`
(`src/agents/resume_generator/nodes/optimize_content.py` lines 197-221) for
a single suggestion: truncate an over-200-character summary, keep at most 3
bullets per experience, at most 10 skills, at most 3 experiences, each
guarded by a literal substring cue in the lower-cased suggestion. -/
def apply_one_optimization (d : ResumeData) (suggestion : Str) : ResumeData :=
  let suggestion_lower := suggestion.map Char.toLower
  let d1 :=
    if ("summary".toList) <:+: suggestion_lower
        ∧ 200 < d.professional_summary.length then
      { d with professional_summary :=
          d.professional_summary.take 200 ++ ("...".toList) }
    else d
  let d2 :=
    if ("experience".toList) <:+: suggestion_lower
        ∨ ("bullet".toList) <:+: suggestion_lower then
      { d1 with experience := d1.experience.map (fun e =>
          if 3 < e.points.length then { e with points := e.points.take 3 }
          else e) }
    else d1
  let d3 :=
    if ("skill".toList) <:+: suggestion_lower ∧ 10 < d2.skills.length then
      { d2 with skills := d2.skills.take 10 }
    else d2
  let d4 :=
    if ("experience".toList) <:+: suggestion_lower
        ∧ 3 < d3.experience.length then
      { d3 with experience := d3.experience.take 3 }
    else d3
  d4

/-- `_apply_optimizations` from `optimize_content.py` lines 173-222: start
from a copy of the resume and apply each suggestion's rewrites in order. -/
def apply_optimizations (resume_data : ResumeData) (suggestions : List Str) :
    ResumeData :=
  suggestions.foldl apply_one_optimization resume_data

/-- Per-experience frame of `_apply_optimizations`: all fields unchanged
except the bullet list, which is a prefix of the original. -/
def ExpTruncated (a b : ResumeExperience) : Prop :=
  a.title = b.title ∧ a.company = b.company ∧ a.location = b.location ∧
  a.start_date = b.start_date ∧ a.end_date = b.end_date ∧
  a.points <+: b.points

/-- Frame of `_apply_optimizations` relative to its input: identity,
education and certification fields unchanged; skills a prefix; the
experience list a prefix of the input list up to bullet truncation; the
summary unchanged or truncated to 200 characters plus an ellipsis. -/
def OptFrame (d r : ResumeData) : Prop :=
  r.name = d.name ∧ r.title = d.title ∧ r.email = d.email ∧
  r.phone = d.phone ∧ r.linkedin_url = d.linkedin_url ∧
  r.education = d.education ∧ r.certifications = d.certifications ∧
  r.skills <+: d.skills ∧
  List.Forall₂ ExpTruncated r.experience
    (d.experience.take r.experience.length) ∧
  (r.professional_summary = d.professional_summary ∨
    (200 < d.professional_summary.length ∧
      r.professional_summary =
        d.professional_summary.take 200 ++ ("...".toList)))

/-- Every exit of the feedback node increments the iteration counter by one,
including the failure and empty-feedback exits. -/
theorem provide_resume_feedback_fst (o : FeedbackOutcome) :
    (provide_resume_feedback o).1 = 1 := by
  cases o <;> rfl

/-- While the iteration budget is not exceeded and both metrics are present,
the routing edge terminates the loop exactly when the measured length lies
in the closed acceptance band. -/
theorem route_feedback_edge_end_iff (s : FeedbackState) (pl t : ℚ)
    (h : s.feedback_loop_iterations ≤ s.feedback_loop_max_iterations)
    (hl : s.resume_page_length = some pl)
    (ht : s.resume_page_target = some t) :
    route_feedback_edge s = RouteTarget.endNode ↔
      t - 7/100 ≤ pl ∧ pl ≤ t := by
  rcases s with ⟨i, m, pl', t'⟩
  simp only at h hl ht
  subst hl ht
  by_cases hc : t - 7/100 ≤ pl ∧ pl ≤ t
  · simp [route_feedback_edge, Nat.not_lt.mpr h, hc]
  · simp [route_feedback_edge, Nat.not_lt.mpr h, hc]

/-- When the routing edge decides to loop, the iteration budget was not yet
exceeded. -/
theorem route_feedback_edge_provide_le (s : FeedbackState)
    (h : route_feedback_edge s = RouteTarget.provideFeedback) :
    s.feedback_loop_iterations ≤ s.feedback_loop_max_iterations := by
  by_contra hlt
  push_neg at hlt
  unfold route_feedback_edge at h
  rw [if_pos hlt] at h
  exact absurd h (by simp)

/-- C1: the aggregate page length of a rendered document is
`(total_pages − 1) + fill[last page]` for every non-empty fill list, with
`[0.80] ↦ 0.80`, `[0.97, 0.27] ↦ 1.27`, and the empty list yielding `0`. -/
theorem compute_resume_page_length_spec :
    compute_resume_page_length [] = 0 ∧
    compute_resume_page_length [4/5] = 4/5 ∧
    compute_resume_page_length [97/100, 27/100] = 127/100 ∧
    ∀ (l : List ℚ) (x : ℚ),
      compute_resume_page_length (l ++ [x]) = (l.length : ℚ) + x := by
  refine ⟨rfl, ?_, ?_, ?_⟩
  · unfold compute_resume_page_length
    norm_num [List.getLast?]
  · unfold compute_resume_page_length
    norm_num [List.getLast?]
  · intro l x
    unfold compute_resume_page_length
    rw [List.getLast?_concat]
    simp only [List.length_append, List.length_singleton]
    push_cast
    ring

/-- C2: while the iteration budget is not exceeded, the routing edge
accepts (ends the loop) iff the measured length lies in
`[target − 0.07, target]`; for target `1.0`, length `0.95` is accepted,
while `0.92` and `1.01` route to another feedback iteration. -/
theorem route_feedback_edge_accepts_iff :
    (∀ (s : FeedbackState) (pl t : ℚ),
        s.feedback_loop_iterations ≤ s.feedback_loop_max_iterations →
        s.resume_page_length = some pl → s.resume_page_target = some t →
        (route_feedback_edge s = RouteTarget.endNode ↔
          t - 7/100 ≤ pl ∧ pl ≤ t)) ∧
    route_feedback_edge ⟨0, 4, some (95/100), some 1⟩ = RouteTarget.endNode ∧
    route_feedback_edge ⟨0, 4, some (92/100), some 1⟩ =
      RouteTarget.provideFeedback ∧
    route_feedback_edge ⟨0, 4, some (101/100), some 1⟩ =
      RouteTarget.provideFeedback := by
  refine ⟨fun s pl t h hl ht => route_feedback_edge_end_iff s pl t h hl ht,
    ?_, ?_, ?_⟩
  · norm_num [route_feedback_edge]
  · norm_num [route_feedback_edge]
  · norm_num [route_feedback_edge]

/-- Witness for C2: the general acceptance characterization applied at the
concrete state with target `1.0` and measured length `0.95`. -/
theorem route_feedback_edge_accepts_iff_witness :
    (0 ≤ 4) ∧
    (route_feedback_edge ⟨0, 4, some (95/100), some 1⟩ = RouteTarget.endNode ↔
      (1:ℚ) - 7/100 ≤ 95/100 ∧ (95/100:ℚ) ≤ 1) :=
  ⟨by norm_num,
    route_feedback_edge_accepts_iff.1 ⟨0, 4, some (95/100), some 1⟩
      (95/100) 1 (by norm_num) rfl rfl⟩

/-- With fuel at least `maxIter + 2 − iters`, the convergence loop returns:
it performs at most `maxIter + 2 − iters` further measured cycles and the
final iteration counter never exceeds `maxIter + 1`. -/
theorem feedback_loop_run_bound (meas : Nat → Option ℚ)
    (fb : Nat → FeedbackOutcome) (target : ℚ) (maxIter : Nat) :
    ∀ (fuel cycles iters : Nat) (recorded : Option ℚ),
      iters ≤ maxIter + 1 → maxIter + 2 ≤ fuel + iters →
      ∃ c f, feedback_loop_run meas fb target maxIter fuel cycles iters
          recorded = some (c, f) ∧
        c + iters ≤ cycles + maxIter + 2 ∧ f ≤ maxIter + 1 := by
  intro fuel
  induction fuel with
  | zero => intro cycles iters recorded h1 h2; omega
  | succ fuel ih =>
    intro cycles iters recorded h1 h2
    rw [feedback_loop_run]
    rcases hr : route_feedback_edge
        ⟨iters, maxIter,
          match meas cycles with
          | some len => some len
          | none => recorded, some target⟩ with _ | _
    · have hle : iters ≤ maxIter := route_feedback_edge_provide_le _ hr
      rw [provide_resume_feedback_fst]
      obtain ⟨c, f, heq, hc, hf⟩ :=
        ih (cycles + 1) (iters + 1)
          (match meas cycles with
            | some len => some len
            | none => recorded)
          (by omega) (by omega)
      exact ⟨c, f, heq, by omega, hf⟩
    · exact ⟨cycles + 1, iters, rfl, by omega, by omega⟩

/-- A run in which every render fails keeps the recorded length absent,
consumes one iteration per measured cycle, and stops exactly when the
counter first exceeds the maximum. -/
theorem feedback_loop_run_all_failing (fb : Nat → FeedbackOutcome)
    (target : ℚ) (maxIter : Nat) :
    ∀ (fuel cycles iters : Nat),
      iters ≤ maxIter + 1 → maxIter + 2 = fuel + iters →
      feedback_loop_run (fun _ => none) fb target maxIter fuel cycles iters
          none = some (cycles + fuel, maxIter + 1) := by
  intro fuel
  induction fuel with
  | zero => intro cycles iters h1 h2; omega
  | succ fuel ih =>
    intro cycles iters h1 h2
    rw [feedback_loop_run]
    by_cases hi : iters > maxIter
    · have hi2 : iters = maxIter + 1 := by omega
      have hfuel : fuel = 0 := by omega
      have hr : route_feedback_edge ⟨iters, maxIter, none, some target⟩ =
          RouteTarget.endNode := by
        unfold route_feedback_edge
        rw [if_pos hi]
      rw [hr]
      simp [hi2, hfuel]
    · have hr : route_feedback_edge ⟨iters, maxIter, none, some target⟩ =
          RouteTarget.provideFeedback := by
        unfold route_feedback_edge
        rw [if_neg hi]
      rw [hr, provide_resume_feedback_fst]
      have hrun := ih (cycles + 1) (iters + 1) (by omega) (by omega)
      rw [hrun]
      have harith : cycles + 1 + fuel = cycles + (fuel + 1) := by omega
      rw [harith]

/-- Counterexample to C3 as stated: with every measurement over target
(length 2 vs target 1) and every feedback call failing, the loop performs
6 measured cycles — more than `maxIterations + 1 = 5` — and the final
iteration counter reaches 5, exceeding `maxIterations = 4`, because
`route_feedback_edge` only stops once `iterations > max_iterations`. -/
theorem feedback_loop_exceeds_claimed_bounds :
    feedback_loop_run (fun _ => some 2) (fun _ => FeedbackOutcome.failure) 1 4
        6 0 0 none = some (6, 5) ∧
    ¬ (6 ≤ 4 + 1) ∧ ¬ (5 ≤ 4) := by
  refine ⟨?_, by omega, by omega⟩
  have hmid : ∀ i : Nat, i ≤ 4 →
      route_feedback_edge ⟨i, 4, some 2, some 1⟩ =
        RouteTarget.provideFeedback := by
    intro i h
    have hc : ¬ ((1:ℚ) - 7/100 ≤ 2 ∧ (2:ℚ) ≤ 1) := by norm_num
    simp [route_feedback_edge, Nat.not_lt.mpr h, hc]
  have hend : route_feedback_edge ⟨5, 4, some 2, some 1⟩ =
      RouteTarget.endNode := by
    simp [route_feedback_edge]
  simp [feedback_loop_run, hmid, hend, provide_resume_feedback_fst]

/-- C3 (amended): for every input the convergence loop terminates within
`maxIterations + 2` measured cycles and the final iteration counter never
exceeds `maxIterations + 1`; the counter is incremented on every feedback
cycle, including failing ones. -/
theorem feedback_loop_terminates_amended :
    (∀ (meas : Nat → Option ℚ) (fb : Nat → FeedbackOutcome) (target : ℚ)
        (maxIter : Nat),
      ∃ c f, feedback_loop_run meas fb target maxIter (maxIter + 2) 0 0 none
          = some (c, f) ∧ c ≤ maxIter + 2 ∧ f ≤ maxIter + 1) ∧
    (∀ o, (provide_resume_feedback o).1 = 1) := by
  constructor
  · intro meas fb target maxIter
    obtain ⟨c, f, heq, hc, hf⟩ :=
      feedback_loop_run_bound meas fb target maxIter (maxIter + 2) 0 0 none
        (by omega) (by omega)
    exact ⟨c, f, heq, by omega, hf⟩
  · exact provide_resume_feedback_fst

/-- C7: a failing render (or template resolution) returns no state update at
all — no path, no page length, hence no acceptance and no new metric — while
the loop still increments the iteration counter through the feedback node,
so a run in which every render fails still terminates, after
`maxIterations + 2` measured cycles with final counter `maxIterations + 1`. -/
theorem render_failure_skips_metrics_still_terminates :
    generate_resume_pdf RenderOutcome.renderFail = (none, none) ∧
    generate_resume_pdf RenderOutcome.templateFail = (none, none) ∧
    (∀ (fb : Nat → FeedbackOutcome) (target : ℚ) (maxIter : Nat),
      feedback_loop_run (fun _ => none) fb target maxIter (maxIter + 2) 0 0
          none = some (maxIter + 2, maxIter + 1)) := by
  refine ⟨rfl, rfl, ?_⟩
  intro fb target maxIter
  have h := feedback_loop_run_all_failing fb target maxIter (maxIter + 2) 0 0
    (by omega) (by omega)
  simpa using h

/-- The best-tracking state component of one `generate_pdf` call. -/
theorem generate_pdf_step_fst (s : BestTrack) (c : GenCycle) :
    (generate_pdf_step s c).1 =
      if should_update_best s.best_len c.pages c.is_optimizing then
        ⟨some c.doc, some c.pages⟩
      else s := rfl

/-- Starting from an existing best candidate, folding `generate_pdf` cycles
tracks exactly the minimum measured page count, and the tracked pair is
either the starting pair or one of the cycles' pairs. -/
theorem fold_best_min (cs : List GenCycle) :
    ∀ (d0 l0 : Nat),
      ∃ d, fold_best ⟨some d0, some l0⟩ cs =
          ⟨some d, some (cs.foldl (fun a x => min a x.pages) l0)⟩ ∧
        ((d, cs.foldl (fun a x => min a x.pages) l0) = (d0, l0) ∨
          (d, cs.foldl (fun a x => min a x.pages) l0) ∈
            cs.map (fun c => (c.doc, c.pages))) := by
  induction cs with
  | nil =>
    intro d0 l0
    exact ⟨d0, rfl, Or.inl rfl⟩
  | cons c rest ih =>
    intro d0 l0
    have hstep : fold_best ⟨some d0, some l0⟩ (c :: rest) =
        fold_best ((generate_pdf_step ⟨some d0, some l0⟩ c).1) rest := rfl
    by_cases hu : should_update_best (some l0) c.pages c.is_optimizing = true
    · have hle : c.pages ≤ l0 := by
        simp [should_update_best] at hu
        rcases hu with h | h
        · omega
        · omega
      have hmin : min l0 c.pages = c.pages := by omega
      obtain ⟨d, hfold, hmem⟩ := ih c.doc c.pages
      refine ⟨d, ?_, ?_⟩
      · rw [hstep, generate_pdf_step_fst]
        simp only [hu, if_true]
        rw [hfold]
        simp [hmin]
      · simp only [List.foldl_cons, hmin]
        rcases hmem with h | h
        · refine Or.inr ?_
          rw [List.map_cons, h]
          exact List.mem_cons_self _ _
        · refine Or.inr ?_
          rw [List.map_cons]
          exact List.mem_cons_of_mem _ h
    · have hge : l0 ≤ c.pages := by
        simp [should_update_best] at hu
        omega
      have hmin : min l0 c.pages = l0 := by omega
      obtain ⟨d, hfold, hmem⟩ := ih d0 l0
      refine ⟨d, ?_, ?_⟩
      · rw [hstep, generate_pdf_step_fst]
        simp only [hu, if_false, Bool.false_eq_true]
        rw [hfold]
        simp [hmin]
      · simp only [List.foldl_cons, hmin]
        rcases hmem with h | h
        · exact Or.inl h
        · refine Or.inr ?_
          rw [List.map_cons]
          exact List.mem_cons_of_mem _ h

/-- C4: when the optimization budget is exhausted (`is_optimizing`,
`optimization_attempts ≥ 4`) and the last measurement still exceeds the
one-page target, `generate_pdf` returns the tracked best candidate — whose
page count is the smallest measured across all cycles and which is one of
the produced documents — rather than the last-produced document. -/
theorem generate_pdf_exhausted_returns_min :
    ∀ (pre : List GenCycle) (last : GenCycle),
      last.is_optimizing = true → 4 ≤ last.attempts → 1 < last.pages →
      (generate_pdf_step (fold_best ⟨none, none⟩ pre) last).2.2 =
          minPages (pre ++ [last]) ∧
      (generate_pdf_step (fold_best ⟨none, none⟩ pre) last).2 ∈
          (pre ++ [last]).map (fun x => (x.doc, x.pages)) := by
  intro pre last hopt hatt hpg
  cases pre with
  | nil =>
    have hs : fold_best ⟨none, none⟩ ([] : List GenCycle) = ⟨none, none⟩ := rfl
    rw [hs]
    have hout : (generate_pdf_step ⟨none, none⟩ last).2 =
        (last.doc, last.pages) := by
      simp [generate_pdf_step, should_update_best, hopt, hatt, hpg]
    constructor
    · rw [hout]
      rfl
    · rw [hout]
      simp [minPages]
  | cons c rest =>
    have hfirst : fold_best ⟨none, none⟩ (c :: rest) =
        fold_best ⟨some c.doc, some c.pages⟩ rest := rfl
    obtain ⟨d, hfold, hmem⟩ := fold_best_min rest c.doc c.pages
    rw [hfirst, hfold]
    have hmp : minPages ((c :: rest) ++ [last]) =
        min (rest.foldl (fun a x => min a x.pages) c.pages) last.pages := by
      show (rest ++ [last]).foldl (fun a x => min a x.pages) c.pages = _
      rw [List.foldl_append]
      rfl
    by_cases hu : should_update_best
        (some (rest.foldl (fun a x => min a x.pages) c.pages)) last.pages
        last.is_optimizing = true
    all_goals rw [hopt] at hu
    · have hlt : last.pages < rest.foldl (fun a x => min a x.pages) c.pages := by
        simp [should_update_best, hopt] at hu
        exact hu
      have hout : (generate_pdf_step
          ⟨some d, some (rest.foldl (fun a x => min a x.pages) c.pages)⟩
          last).2 = (last.doc, last.pages) := by
        simp [generate_pdf_step, hu, hopt, hatt, hpg]
      constructor
      · rw [hout, hmp]
        show last.pages = _
        omega
      · rw [hout, List.map_append]
        exact List.mem_append_right _ (by simp)
    · have hge : rest.foldl (fun a x => min a x.pages) c.pages ≤ last.pages := by
        simp [should_update_best, hopt] at hu
        omega
      have hout : (generate_pdf_step
          ⟨some d, some (rest.foldl (fun a x => min a x.pages) c.pages)⟩
          last).2 = (d, rest.foldl (fun a x => min a x.pages) c.pages) := by
        simp [generate_pdf_step, hu, hopt, hatt, hpg]
      constructor
      · rw [hout, hmp]
        show rest.foldl (fun a x => min a x.pages) c.pages = _
        omega
      · rw [hout]
        rcases hmem with h | h
        · rw [h]
          exact List.mem_map_of_mem _
            (List.mem_append_left _ (List.mem_cons_self _ _))
        · rw [List.map_append, List.map_cons]
          exact List.mem_append_left _ (List.mem_cons_of_mem _ h)

/-- Witness for C4: two cycles, a 2-page non-optimizing draft then a 3-page
draft on the exhausted optimization attempt; the returned pair is the
first (best) document with the minimum page count 2, not the last-produced
document. -/
theorem generate_pdf_exhausted_returns_min_witness :
    (GenCycle.mk 1 3 true 4).is_optimizing = true ∧
    4 ≤ (GenCycle.mk 1 3 true 4).attempts ∧
    1 < (GenCycle.mk 1 3 true 4).pages ∧
    ((generate_pdf_step (fold_best ⟨none, none⟩ [GenCycle.mk 0 2 false 0])
        (GenCycle.mk 1 3 true 4)).2.2 =
      minPages ([GenCycle.mk 0 2 false 0] ++ [GenCycle.mk 1 3 true 4]) ∧
    (generate_pdf_step (fold_best ⟨none, none⟩ [GenCycle.mk 0 2 false 0])
        (GenCycle.mk 1 3 true 4)).2 ∈
      ([GenCycle.mk 0 2 false 0] ++ [GenCycle.mk 1 3 true 4]).map
        (fun x => (x.doc, x.pages))) :=
  ⟨rfl, by decide, by decide,
    generate_pdf_exhausted_returns_min [GenCycle.mk 0 2 false 0]
      (GenCycle.mk 1 3 true 4) rfl (by decide) (by decide)⟩

/-- The dedup loop output is a sublist of its input (order preserved,
nothing added). -/
theorem dedup_skills_go_sublist (l : List Str) :
    ∀ seen, List.Sublist (dedup_skills_go seen l) l := by
  induction l with
  | nil => intro seen; exact List.Sublist.refl _
  | cons sk rest ih =>
    intro seen
    rw [dedup_skills_go]
    by_cases h : sk ∈ seen
    · rw [if_pos h]
      exact List.Sublist.cons _ (ih seen)
    · rw [if_neg h]
      exact List.Sublist.cons₂ _ (ih (sk :: seen))

/-- Nothing the dedup loop emits was in the seen set it started from. -/
theorem dedup_skills_go_not_mem_seen (l : List Str) :
    ∀ seen x, x ∈ dedup_skills_go seen l → x ∉ seen := by
  induction l with
  | nil => intro seen x hx; simp [dedup_skills_go] at hx
  | cons sk rest ih =>
    intro seen x hx
    rw [dedup_skills_go] at hx
    by_cases h : sk ∈ seen
    · rw [if_pos h] at hx
      exact ih seen x hx
    · rw [if_neg h] at hx
      rcases List.mem_cons.mp hx with hx | hx
      · rw [hx]; exact h
      · intro hseen
        exact ih (sk :: seen) x hx (List.mem_cons_of_mem _ hseen)

/-- The dedup loop emits no duplicates. -/
theorem dedup_skills_go_nodup (l : List Str) :
    ∀ seen, (dedup_skills_go seen l).Nodup := by
  induction l with
  | nil => intro seen; simp [dedup_skills_go]
  | cons sk rest ih =>
    intro seen
    rw [dedup_skills_go]
    by_cases h : sk ∈ seen
    · rw [if_pos h]; exact ih seen
    · rw [if_neg h]
      refine List.nodup_cons.mpr ⟨?_, ih (sk :: seen)⟩
      intro hmem
      exact dedup_skills_go_not_mem_seen rest (sk :: seen) sk hmem
        (List.mem_cons_self _ _)

/-- On a duplicate-free list disjoint from the seen set, the dedup loop is
the identity. -/
theorem dedup_skills_go_id (l : List Str) :
    ∀ seen, l.Nodup → (∀ x ∈ l, x ∉ seen) → dedup_skills_go seen l = l := by
  induction l with
  | nil => intro seen _ _; rfl
  | cons sk rest ih =>
    intro seen hnd hdisj
    rw [dedup_skills_go,
      if_neg (hdisj sk (List.mem_cons_self _ _))]
    rw [ih (sk :: seen) (List.nodup_cons.mp hnd).2]
    intro x hx
    rw [List.mem_cons, not_or]
    exact ⟨fun hxs => (List.nodup_cons.mp hnd).1 (hxs ▸ hx),
      hdisj x (List.mem_cons_of_mem _ hx)⟩

/-- Counterexample to C5 as stated: the skills dedup of
`_assemble_resume_from_selection` compares raw strings, so `"A"` and `"a"`,
equal up to case, both survive — the dedup is not case-insensitive. -/
theorem dedup_skills_case_sensitive_counterexample :
    dedup_skills [['A'], ['a']] = [['A'], ['a']] ∧
    ['A'].map Char.toLower = ['a'].map Char.toLower ∧
    (['A'] : Str) ≠ ['a'] := by
  refine ⟨by decide, by decide, by decide⟩

/-- C5 (amended): the skills dedup is case-sensitive (exact string
equality); it preserves first-seen order (the output is a sublist of the
input), emits no exact duplicates, and is idempotent. -/
theorem dedup_skills_idempotent_order_preserving :
    ∀ l : List Str,
      dedup_skills (dedup_skills l) = dedup_skills l ∧
      List.Sublist (dedup_skills l) l ∧ (dedup_skills l).Nodup := by
  intro l
  refine ⟨?_, dedup_skills_go_sublist l [], dedup_skills_go_nodup l []⟩
  exact dedup_skills_go_id _ [] (dedup_skills_go_nodup l [])
    (by intro x _; exact List.not_mem_nil x)

/-- Counterexample to C6 as stated: with no user record loaded,
`select_resume_content` produces no document at all (rather than one with
empty identity fields), and `transform_user_to_resume_data` raises
`ValueError` when first and last name are missing (rather than never
raising). -/
theorem missing_identity_counterexample :
    select_resume_content none [] [] [] [] ⟨[], [], []⟩ = none ∧
    (¬ ∃ d, select_resume_content none [] [] [] [] ⟨[], [], []⟩ = some d) ∧
    transform_user_to_resume_data ⟨[], [], none, none, none⟩ [] [] [] [] =
      Except.error ("User must have first and last name".toList) := by
  refine ⟨rfl, ?_, rfl⟩
  rintro ⟨d, hd⟩
  simp [select_resume_content] at hd

/-- C6 (amended): when the user record is absent the selection node skips
assembly and produces no document (without raising); when the user record
is present, missing optional identity fields (email, phone, linkedin) are
filled with empty strings by the assembler; the data adapter instead raises
`ValueError` when first or last name is missing and substitutes a
placeholder when only the email is missing. -/
theorem missing_identity_behavior :
    (∀ (exps : List (Nat × Experience)) (edus : List Education)
        (certs : List Certification) (jt : Str) (sel : NodeOutput),
      select_resume_content none exps edus certs jt sel = none) ∧
    (∀ (u : User) (exps : List (Nat × Experience)) (edus : List Education)
        (certs : List Certification) (jt : Str) (sel : NodeOutput),
      u.email = none → u.phone = none → u.linkedin_url = none →
      ∃ d, select_resume_content (some u) exps edus certs jt sel = some d ∧
        d.email = [] ∧ d.phone = [] ∧ d.linkedin_url = []) ∧
    (∀ (u : User) (edus : List Education) (certs : List Certification)
        (exps : List Experience) (jt : Str),
      u.first_name = [] ∨ u.last_name = [] →
      transform_user_to_resume_data u edus certs exps jt =
        Except.error ("User must have first and last name".toList)) ∧
    (∀ (u : User) (edus : List Education) (certs : List Certification)
        (exps : List Experience) (jt : Str),
      u.first_name ≠ [] → u.last_name ≠ [] → u.email = none →
      ∃ d, transform_user_to_resume_data u edus certs exps jt =
          Except.ok d ∧ d.email = ("email@example.com".toList)) := by
  refine ⟨fun _ _ _ _ _ => rfl, ?_, ?_, ?_⟩
  · intro u exps edus certs jt sel he hp hl
    exact ⟨_, rfl, by simp [assemble_resume_from_selection, he, hp, hl]⟩
  · intro u edus certs exps jt h
    unfold transform_user_to_resume_data
    rw [if_pos h]
  · intro u edus certs exps jt h1 h2 he
    unfold transform_user_to_resume_data
    rw [if_neg (by simp [h1, h2])]
    exact ⟨_, rfl, by simp [he]⟩

/-- Witness for C6 (amended) at a concrete user with names `J` / `D` and no
email, phone or linkedin: the assembler fills empty strings and the data
adapter substitutes the placeholder email. -/
theorem missing_identity_behavior_witness :
    (∃ d, select_resume_content (some ⟨['J'], ['D'], none, none, none⟩)
        [] [] [] [] ⟨[], [], []⟩ = some d ∧
      d.email = [] ∧ d.phone = [] ∧ d.linkedin_url = []) ∧
    (∃ d, transform_user_to_resume_data ⟨['J'], ['D'], none, none, none⟩
        [] [] [] [] = Except.ok d ∧
      d.email = ("email@example.com".toList)) :=
  ⟨missing_identity_behavior.2.1 ⟨['J'], ['D'], none, none, none⟩
      [] [] [] [] ⟨[], [], []⟩ rfl rfl rfl,
    missing_identity_behavior.2.2.2 ⟨['J'], ['D'], none, none, none⟩
      [] [] [] [] (by decide) (by decide) rfl⟩

/-- A natural-number page length lies in the acceptance band for target
`1.0` exactly when it is `1`. -/
theorem nat_cast_band_iff_one (n : Nat) :
    ((1 : ℚ) - 7/100 ≤ (n : ℚ) ∧ (n : ℚ) ≤ 1) ↔ n = 1 := by
  constructor
  · rintro ⟨h1, h2⟩
    have hn1 : n ≤ 1 := by exact_mod_cast h2
    have hn0 : n ≠ 0 := by
      rintro rfl
      norm_num at h1
    omega
  · rintro rfl
    norm_num

/-- C8: `scorePoint` equals twice the job-token overlap plus the length
bonus; empty input yields the empty token set and score `0`; every token
survives the length filter (length > 2); and a concrete evaluation:
tokens of length ≤ 2 are dropped and overlap counts once per distinct
token. -/
theorem tokenize_scorePoint_spec :
    (∀ (point : Str) (jobTokens : Finset Str),
      scorePoint point jobTokens =
        2 * ((tokenize point) ∩ jobTokens).card +
          (if 8 ≤ wordCount point ∧ wordCount point ≤ 24 then 1 else 0)) ∧
    tokenize [] = ∅ ∧
    (∀ jobTokens, scorePoint [] jobTokens = 0) ∧
    (∀ (text t : Str), t ∈ tokenize text → 2 < t.length) ∧
    tokenize ("a bb ccc Dd".toList) = {("ccc".toList)} ∧
    scorePoint ("alpha beta gamma".toList)
      (tokenize ("alpha gamma delta".toList)) = 4 := by
  refine ⟨fun _ _ => rfl, rfl, ?_, ?_, by decide, by decide⟩
  · intro jobTokens
    simp [scorePoint, show tokenize [] = ∅ from rfl,
      show wordCount [] = 0 from rfl]
  · intro text t ht
    unfold tokenize at ht
    rw [List.mem_toFinset] at ht
    simpa using (List.mem_filter.mp ht).2

/-- Witness for C8: the token-length filter applied at the concrete text
`a bb ccc Dd` and its surviving token `ccc`. -/
theorem tokenize_scorePoint_spec_witness :
    ("ccc".toList) ∈ tokenize ("a bb ccc Dd".toList) ∧
    2 < ("ccc".toList).length :=
  ⟨by decide,
    tokenize_scorePoint_spec.2.2.2.1 ("a bb ccc Dd".toList) ("ccc".toList)
      (by decide)⟩

/-- C9: a successful `generate_resume_pdf` cycle records
`float(page_count)` — an integer-valued length, never a fractional fill —
and with target `1.0` the routing edge (before budget exhaustion) accepts
exactly when the rendered PDF has exactly one page. -/
theorem recorded_page_length_whole_pages :
    (∀ (p : Str) (n : Nat),
      (generate_resume_pdf (RenderOutcome.rendered p n)).2 = some ((n : ℚ))) ∧
    (∀ (p : Str) (n : Nat), ∃ k : ℕ,
      (generate_resume_pdf (RenderOutcome.rendered p n)).2 = some ((k : ℚ))) ∧
    (∀ n : Nat, ((1 : ℚ) - 7/100 ≤ (n : ℚ) ∧ (n : ℚ) ≤ 1) ↔ n = 1) ∧
    (∀ (s : FeedbackState) (n : Nat),
      s.feedback_loop_iterations ≤ s.feedback_loop_max_iterations →
      s.resume_page_length = some ((n : ℚ)) →
      s.resume_page_target = some 1 →
      (route_feedback_edge s = RouteTarget.endNode ↔ n = 1)) := by
  refine ⟨fun _ _ => rfl, fun p n => ⟨n, rfl⟩, nat_cast_band_iff_one, ?_⟩
  intro s n h hl ht
  rw [route_feedback_edge_end_iff s ((n : ℚ)) 1 h hl ht]
  exact nat_cast_band_iff_one n

/-- Witness for C9: a one-page render at iteration 0 of 4 is accepted. -/
theorem recorded_page_length_whole_pages_witness :
    (0 ≤ 4) ∧
    (route_feedback_edge ⟨0, 4, some (((1 : ℕ) : ℚ)), some 1⟩ =
        RouteTarget.endNode ↔ (1 : ℕ) = 1) :=
  ⟨by norm_num,
    recorded_page_length_whole_pages.2.2.2
      ⟨0, 4, some (((1 : ℕ) : ℚ)), some 1⟩ 1 (by norm_num) rfl rfl⟩

/-- `ExpTruncated` is reflexive. -/
theorem expTruncated_refl (e : ResumeExperience) : ExpTruncated e e :=
  ⟨rfl, rfl, rfl, rfl, rfl, ⟨[], List.append_nil _⟩⟩

/-- `ExpTruncated` is transitive. -/
theorem expTruncated_trans {a b c : ResumeExperience}
    (h1 : ExpTruncated a b) (h2 : ExpTruncated b c) : ExpTruncated a c :=
  ⟨h1.1.trans h2.1, h1.2.1.trans h2.2.1, h1.2.2.1.trans h2.2.2.1,
    h1.2.2.2.1.trans h2.2.2.2.1, h1.2.2.2.2.1.trans h2.2.2.2.2.1,
    h1.2.2.2.2.2.trans h2.2.2.2.2.2⟩

/-- `List.Forall₂` over `ExpTruncated` composes. -/
theorem forall₂_expTruncated_trans :
    ∀ {l1 l2 l3 : List ResumeExperience},
      List.Forall₂ ExpTruncated l1 l2 → List.Forall₂ ExpTruncated l2 l3 →
      List.Forall₂ ExpTruncated l1 l3 := by
  intro l1 l2 l3 h1 h2
  induction h1 generalizing l3 with
  | nil =>
    cases h2
    exact List.Forall₂.nil
  | cons hab h1' ih =>
    cases h2 with
    | cons hbc h2' =>
      exact List.Forall₂.cons (expTruncated_trans hab hbc) (ih h2')

/-- `OptFrame` is reflexive. -/
theorem optFrame_refl (d : ResumeData) : OptFrame d d := by
  refine ⟨rfl, rfl, rfl, rfl, rfl, rfl, rfl, ⟨[], List.append_nil _⟩, ?_,
    Or.inl rfl⟩
  rw [List.take_length]
  exact List.forall₂_same.mpr (fun x _ => expTruncated_refl x)

/-- `OptFrame` is transitive. -/
theorem optFrame_trans {d m r : ResumeData}
    (h1 : OptFrame d m) (h2 : OptFrame m r) : OptFrame d r := by
  obtain ⟨e1, e2, e3, e4, e5, e6, e7, hsk1, hexp1, hsum1⟩ := h1
  obtain ⟨f1, f2, f3, f4, f5, f6, f7, hsk2, hexp2, hsum2⟩ := h2
  refine ⟨f1.trans e1, f2.trans e2, f3.trans e3, f4.trans e4, f5.trans e5,
    f6.trans e6, f7.trans e7, hsk2.trans hsk1, ?_, ?_⟩
  · have hlen : r.experience.length ≤ m.experience.length := by
      have := hexp2.length_eq
      rw [List.length_take] at this
      omega
    have htake := List.forall₂_take r.experience.length hexp1
    rw [List.take_take] at htake
    rw [Nat.min_eq_left hlen] at htake
    exact forall₂_expTruncated_trans hexp2 htake
  · rcases hsum2 with h | ⟨hm, h⟩
    · rcases hsum1 with h' | ⟨hd, h'⟩
      · exact Or.inl (h.trans h')
      · exact Or.inr ⟨hd, h.trans h'⟩
    · rcases hsum1 with h' | ⟨hd, h'⟩
      · rw [h'] at hm h
        exact Or.inr ⟨hm, h⟩
      · refine Or.inr ⟨hd, ?_⟩
        rw [h, h']
        have hl200 : (d.professional_summary.take 200).length = 200 := by
          rw [List.length_take]
          omega
        rw [List.take_left' hl200]

/-- Truncating each experience's bullets to the top three is an
`ExpTruncated` rewrite. -/
theorem expTruncated_points_take (e : ResumeExperience) :
    ExpTruncated
      (if 3 < e.points.length then { e with points := e.points.take 3 }
        else e) e := by
  by_cases h : 3 < e.points.length
  · rw [if_pos h]
    exact ⟨rfl, rfl, rfl, rfl, rfl, ⟨e.points.drop 3,
      List.take_append_drop 3 e.points⟩⟩
  · rw [if_neg h]
    exact expTruncated_refl e

/-- The summary rewrite of `_apply_optimizations` stays inside the frame:
either nothing changes or an over-200-character summary is truncated to 200
characters plus an ellipsis. -/
theorem optFrame_step_summary (x : ResumeData) (c : Prop) [Decidable c] :
    OptFrame x
      (if c ∧ 200 < x.professional_summary.length then
        { x with professional_summary :=
            x.professional_summary.take 200 ++ ("...".toList) }
      else x) := by
  by_cases h : c ∧ 200 < x.professional_summary.length
  · rw [if_pos h]
    refine ⟨rfl, rfl, rfl, rfl, rfl, rfl, rfl, ⟨[], List.append_nil _⟩, ?_,
      Or.inr ⟨h.2, rfl⟩⟩
    rw [List.take_length]
    exact List.forall₂_same.mpr (fun e _ => expTruncated_refl e)
  · rw [if_neg h]
    exact optFrame_refl x

/-- The bullet-truncation rewrite of `_apply_optimizations` stays inside
the frame. -/
theorem optFrame_step_bullets (x : ResumeData) (c : Prop) [Decidable c] :
    OptFrame x
      (if c then
        { x with experience := x.experience.map (fun e =>
            if 3 < e.points.length then { e with points := e.points.take 3 }
            else e) }
      else x) := by
  by_cases h : c
  · rw [if_pos h]
    refine ⟨rfl, rfl, rfl, rfl, rfl, rfl, rfl, ⟨[], List.append_nil _⟩, ?_,
      Or.inl rfl⟩
    rw [List.length_map, List.take_length]
    exact List.forall₂_map_left_iff.mpr
      (List.forall₂_same.mpr (fun e _ => expTruncated_points_take e))
  · rw [if_neg h]
    exact optFrame_refl x

/-- The skills-truncation rewrite of `_apply_optimizations` stays inside
the frame. -/
theorem optFrame_step_skills (x : ResumeData) (c : Prop) [Decidable c] :
    OptFrame x (if c then { x with skills := x.skills.take 10 } else x) := by
  by_cases h : c
  · rw [if_pos h]
    refine ⟨rfl, rfl, rfl, rfl, rfl, rfl, rfl,
      ⟨x.skills.drop 10, List.take_append_drop 10 x.skills⟩, ?_, Or.inl rfl⟩
    rw [List.take_length]
    exact List.forall₂_same.mpr (fun e _ => expTruncated_refl e)
  · rw [if_neg h]
    exact optFrame_refl x

/-- The experience-truncation rewrite of `_apply_optimizations` stays
inside the frame. -/
theorem optFrame_step_expTake (x : ResumeData) (c : Prop) [Decidable c] :
    OptFrame x
      (if c then { x with experience := x.experience.take 3 } else x) := by
  by_cases h : c
  · rw [if_pos h]
    refine ⟨rfl, rfl, rfl, rfl, rfl, rfl, rfl, ⟨[], List.append_nil _⟩, ?_,
      Or.inl rfl⟩
    show List.Forall₂ ExpTruncated (x.experience.take 3)
      (x.experience.take (x.experience.take 3).length)
    rw [List.length_take]
    have htt : x.experience.take (min 3 x.experience.length) =
        x.experience.take 3 := by
      rcases Nat.le_total 3 x.experience.length with hle | hle
      · rw [Nat.min_eq_left hle]
      · rw [Nat.min_eq_right hle, List.take_length,
          List.take_of_length_le hle]
    rw [htt]
    exact List.forall₂_same.mpr (fun e _ => expTruncated_refl e)
  · rw [if_neg h]
    exact optFrame_refl x

/-- One suggestion pass of `_apply_optimizations` stays inside the frame. -/
theorem optFrame_apply_one (d : ResumeData) (s : Str) :
    OptFrame d (apply_one_optimization d s) := by
  unfold apply_one_optimization
  exact optFrame_trans
    (optFrame_trans
      (optFrame_trans (optFrame_step_summary d _) (optFrame_step_bullets _ _))
      (optFrame_step_skills _ _))
    (optFrame_step_expTake _ _)

/-- Folding suggestion passes preserves the frame. -/
theorem optFrame_foldl :
    ∀ (ss : List Str) (d m : ResumeData), OptFrame d m →
      OptFrame d (ss.foldl apply_one_optimization m) := by
  intro ss
  induction ss with
  | nil => intro d m h; exact h
  | cons s rest ih =>
    intro d m h
    exact ih d _ (optFrame_trans h (optFrame_apply_one m s))

/-- C10: applying optimization suggestions never touches name, title,
email, phone, linkedin, education or certifications; the experience list is
a prefix of the input up to per-experience bullet truncation to a prefix;
the skills list is a prefix of the input; and the summary is unchanged or
truncated to its first 200 characters plus an ellipsis. -/
theorem apply_optimizations_frame (d : ResumeData) (suggestions : List Str) :
    OptFrame d (apply_optimizations d suggestions) :=
  optFrame_foldl suggestions d d (optFrame_refl d)
